import Mathlib

/-!
Verification of the SnakeyBoi repository (scored variant of src/main.cpp and the
particle emitter of the CrispyOctoSpork engine source).

Shallow embedding conventions:
* Grid coordinates and velocities are stored as C++ floats but only ever hold
  small integers (moves are by unit steps, wrap keeps them in [0, 20) x [0, 15)),
  so they are embedded as integers.
* Timing quantities (deltaTime, secondAccumulator, particle lifetimes) are C++
  floats combined with +, *, /, and comparisons; they are embedded as rationals.
* rand() is embedded as an oracle stream of naturals; rand() % n becomes
  stream access followed by % n.
* The apple-respawn while loop has no termination guarantee in the source, so it
  is embedded fuel-indexed, returning none when the fuel runs out.
-/

namespace SnakeyBoi

/-- The GameState enum of main.cpp. -/
inductive GameState where
  | MENU
  | PLAYING
  | LOSE
  | PAUSE
deriving DecidableEq, Repr

/-- One cell of the snake body (struct Tail of main.cpp; x, y floats holding
grid-cell integers). -/
structure Tail where
  x : ℤ
  y : ℤ
deriving DecidableEq, Repr

/-- The apple position (struct Apple of main.cpp; texture omitted). -/
structure Apple where
  x : ℤ
  y : ℤ
deriving DecidableEq, Repr

/-- struct Snake of main.cpp (texture omitted). tailLength is a C++ int. -/
structure Snake where
  xVelocity : ℤ
  yVelocity : ℤ
  tail : List Tail
  tailLength : ℤ
deriving DecidableEq, Repr

/-- WIDTH / GRID_SIZE = 640 / 32. -/
def GRID_WIDTH : ℤ := 20

/-- HEIGHT / GRID_SIZE = 480 / 32. -/
def GRID_HEIGHT : ℤ := 15

/-- float movesPerSecond = 10.0. -/
def movesPerSecond : ℚ := 10

/-- The SnakeGame fields that the claims concern: the state machine, the snake,
the apple, the score and the two move-scheduler fields. -/
structure Game where
  state : GameState
  snake : Snake
  apple : Apple
  score : ℤ
  secondAccumulator : ℚ
  movesPerformedThisSecond : ℤ
deriving DecidableEq, Repr

/-- SnakeGame member initializers: state MENU, default-constructed Snake and
Apple, score 0, scheduler fields 0. -/
def initialGame : Game :=
  { state := GameState.MENU
  , snake := { xVelocity := 0, yVelocity := 0, tail := [], tailLength := 0 }
  , apple := { x := 0, y := 0 }
  , score := 0
  , secondAccumulator := 0
  , movesPerformedThisSecond := 0 }

/-- SnakeGame::InitPlayingState (scored variant, main.cpp lines 413-434).
The for loop pushes { startingX + (-xVelocity * i), startingY } for
i = 0 .. tailLength-1 with xVelocity already set to 1; the apple is placed at
(rand() % GRID_WIDTH, rand() % GRID_HEIGHT) with no overlap check; the score is
reset to 0.  r is the rand() oracle. -/
def initPlayingState (r : ℕ → ℕ) (g : Game) : Game :=
  let startingX : ℤ := 8
  let startingY : ℤ := 8
  { g with
    snake :=
      { xVelocity := 1
      , yVelocity := 0
      , tail := (List.range 6).map (fun i => Tail.mk (startingX - (i : ℤ)) startingY)
      , tailLength := 6 }
  , apple := { x := ((r 0 % GRID_WIDTH.toNat : ℕ) : ℤ)
             , y := ((r 1 % GRID_HEIGHT.toNat : ℕ) : ℤ) }
  , score := 0 }

/-- Per-frame key-state snapshot (SDL_GetKeyboardState), restricted to the
scancodes the game reads. -/
structure Keys where
  space : Bool
  w : Bool
  up : Bool
  s : Bool
  down : Bool
  a : Bool
  left : Bool
  d : Bool
  right : Bool
  escape : Bool
deriving DecidableEq, Repr

/-- SnakeGame::OnEventMenu: SPACE switches to PLAYING and runs
InitPlayingState. -/
def onEventMenu (keys : Keys) (r : ℕ → ℕ) (g : Game) : Game :=
  if keys.space then initPlayingState r { g with state := GameState.PLAYING } else g

/-- SnakeGame::OnEventPlaying (scored variant, main.cpp lines 467-507): the
if/else-if chain over W/UP, S/DOWN, A/LEFT, D/RIGHT, ESCAPE, each direction
guarded against reversing the currently moving axis. -/
def onEventPlaying (keys : Keys) (g : Game) : Game :=
  if keys.w || keys.up then
    if g.snake.yVelocity ≠ 1 then
      { g with snake := { g.snake with yVelocity := -1, xVelocity := 0 } }
    else g
  else if keys.s || keys.down then
    if g.snake.yVelocity ≠ -1 then
      { g with snake := { g.snake with yVelocity := 1, xVelocity := 0 } }
    else g
  else if keys.a || keys.left then
    if g.snake.xVelocity ≠ 1 then
      { g with snake := { g.snake with yVelocity := 0, xVelocity := -1 } }
    else g
  else if keys.d || keys.right then
    if g.snake.xVelocity ≠ -1 then
      { g with snake := { g.snake with yVelocity := 0, xVelocity := 1 } }
    else g
  else if keys.escape then
    { g with state := GameState.MENU }
  else g

/-- SnakeGame::OnEvent (scored variant): dispatch on the state; LOSE uses the
menu handler, PAUSE has no case. -/
def onEvent (keys : Keys) (r : ℕ → ℕ) (g : Game) : Game :=
  match g.state with
  | GameState.MENU => onEventMenu keys r g
  | GameState.PLAYING => onEventPlaying keys g
  | GameState.LOSE => onEventMenu keys r g
  | GameState.PAUSE => g

/-- The per-coordinate toroidal wrap of OnUpdatePlaying (main.cpp lines
556-574): two successive ifs, the second testing the value produced by the
first. -/
def wrapCoord (g : ℤ) (v : ℤ) : ℤ :=
  if (if v > g - 1 then 0 else v) < 0 then g - 1 else (if v > g - 1 then 0 else v)

/-- The move-scheduler part of OnUpdatePlaying (main.cpp lines 536-549):
add deltaTime to the accumulator; if the accumulator reached 1000, zero the
accumulator and the performed count; signal a move (and increment the count)
when the count is below accumulator * movesPerSecond / 1000 — an int-to-float
comparison, with no flooring of the right-hand side.
Returns (new accumulator, new performed count, move due this frame). -/
def schedFrame (dt : ℚ) (acc0 : ℚ) (performed0 : ℤ) : ℚ × ℤ × Bool :=
  let acc1 := acc0 + dt
  let acc := if acc1 ≥ 1000 then 0 else acc1
  let performed := if acc1 ≥ 1000 then 0 else performed0
  if (performed : ℚ) < acc * movesPerSecond / 1000 then
    (acc, performed + 1, true)
  else
    (acc, performed, false)

/-- Driving schedFrame over a list of per-frame delta times, counting the due
steps. Returns (final accumulator, final performed count, due steps). -/
def schedRun : List ℚ → ℚ → ℤ → ℚ × ℤ × ℕ
  | [], acc, performed => (acc, performed, 0)
  | dt :: rest, acc, performed =>
    match schedFrame dt acc performed with
    | (acc1, performed1, due) =>
      match schedRun rest acc1 performed1 with
      | (accf, performedf, c) => (accf, performedf, (if due then 1 else 0) + c)

/-- The collision test pattern of OnUpdatePlaying: a for loop over
i = 0 .. tailLength-1 testing snake->tail[i].x == x && snake->tail[i].y == y.
(Both the self-collision loop at lines 576-582 and the respawn-check loop at
lines 601-607 have this shape; an int loop bound runs toNat iterations.) -/
def segHit (tl : List Tail) (len : ℤ) (x y : ℤ) : Bool :=
  (List.range len.toNat).any
    (fun i => (tl.getD i (Tail.mk 0 0)).x == x && (tl.getD i (Tail.mk 0 0)).y == y)

/-- The apple-respawn while loop (main.cpp lines 593-608): repeatedly draw
(rand() % GRID_WIDTH, rand() % GRID_HEIGHT) until the sample misses
tail[0 .. tailLength-1]; tl is the post-insertion segment list. The source
loop has no termination guarantee, so the embedding is fuel-indexed; k is the
position in the rand() oracle and the returned value also carries the oracle
position after the loop. -/
def respawnSearch (r : ℕ → ℕ) (tl : List Tail) (len : ℤ) : ℕ → ℕ → Option ((ℤ × ℤ) × ℕ)
  | 0, _ => none
  | fuel + 1, k =>
    let ax : ℤ := ((r k % GRID_WIDTH.toNat : ℕ) : ℤ)
    let ay : ℤ := ((r (k + 1) % GRID_HEIGHT.toNat : ℕ) : ℤ)
    if segHit tl len ax ay then respawnSearch r tl len fuel (k + 2)
    else some ((ax, ay), k + 2)

/-- The wrapped new head position computed at main.cpp lines 553-574:
tail[0] plus the velocity, each coordinate wrapped. -/
def newHeadOf (g : Game) : Tail :=
  let head := g.snake.tail.getD 0 (Tail.mk 0 0)
  Tail.mk (wrapCoord GRID_WIDTH (head.x + g.snake.xVelocity))
          (wrapCoord GRID_HEIGHT (head.y + g.snake.yVelocity))

/-- The body of the `if (moveThisFrameUpdate)` block of OnUpdatePlaying
(main.cpp lines 551-616): compute and wrap the new head; set state to LOSE if
it hits any of the first tailLength pre-insertion segments; insert the head at
the front; if the head equals the apple, bump the score, run the respawn
search (against the first tailLength segments of the post-insertion list) and
increment tailLength; otherwise pop the last segment.  Returns none exactly
when the respawn search exhausts its fuel. -/
def stepSnakeDue (r : ℕ → ℕ) (fuel : ℕ) (g : Game) : Option Game :=
  let s := g.snake
  let nh := newHeadOf g
  let st := if segHit s.tail s.tailLength nh.x nh.y then GameState.LOSE else g.state
  let tl := nh :: s.tail
  if nh.x == g.apple.x && nh.y == g.apple.y then
    match respawnSearch r tl s.tailLength fuel 0 with
    | none => none
    | some ((ax, ay), _) =>
      some { g with
        state := st
      , snake := { s with tail := tl, tailLength := s.tailLength + 1 }
      , apple := { x := ax, y := ay }
      , score := g.score + 1 }
  else
    some { g with state := st, snake := { s with tail := tl.dropLast } }

/-- The snake-segment render loop at main.cpp lines 620-623: one draw call per
i = 0 .. tailLength-1 at tail[i]. -/
def renderSegs (g : Game) : List Tail :=
  (List.range g.snake.tailLength.toNat).map (fun i => g.snake.tail.getD i (Tail.mk 0 0))

/-- SnakeGame::OnUpdatePlaying (scored variant, main.cpp lines 534-628):
run the move scheduler, execute the due step if any, then render.  The render
output is the list of drawn snake segments. -/
def onUpdatePlaying (dt : ℚ) (r : ℕ → ℕ) (fuel : ℕ) (g : Game) : Option (Game × List Tail) :=
  match schedFrame dt g.secondAccumulator g.movesPerformedThisSecond with
  | (acc, performed, due) =>
    let g1 := { g with secondAccumulator := acc, movesPerformedThisSecond := performed }
    match if due then stepSnakeDue r fuel g1 else some g1 with
    | none => none
    | some g2 => some (g2, renderSegs g2)

/-- SnakeGame::OnUpdate (scored variant): dispatch on the state. MENU and LOSE
only issue texture draws (no snake segments); PAUSE has no case. -/
def onUpdate (dt : ℚ) (r : ℕ → ℕ) (fuel : ℕ) (g : Game) : Option (Game × List Tail) :=
  match g.state with
  | GameState.PLAYING => onUpdatePlaying dt r fuel g
  | _ => some (g, [])

/-- Game states reachable from the initial SnakeGame by any interleaving of
event dispatches (arbitrary key snapshots) and frame updates (arbitrary
deltaTime and rand() oracle). -/
inductive Reachable : Game → Prop
  | init : Reachable initialGame
  | ev (keys : Keys) (r : ℕ → ℕ) (g : Game) :
      Reachable g → Reachable (onEvent keys r g)
  | upd (dt : ℚ) (r : ℕ → ℕ) (fuel : ℕ) (g g' : Game) (out : List Tail) :
      Reachable g → onUpdate dt r fuel g = some (g', out) → Reachable g'

/-- C++ float-to-int conversion: truncation toward zero. -/
def ratTrunc (q : ℚ) : ℤ :=
  if 0 ≤ q then ⌊q⌋ else ⌈q⌉

/-- struct Particle of the engine source. -/
structure Particle where
  x : ℚ
  y : ℚ
  xVelocity : ℚ
  yVelocity : ℚ
  totalLifeTime : ℚ
  lifeTimeRemaining : ℚ
  active : Bool
deriving DecidableEq, Repr

/-- The fields of class ParticleEmitter (texture and the size multipliers,
which are never read by OnUpdate/OnRender, omitted).
particlesCreatedThisSecond is declared float in the source. -/
structure ParticleEmitter where
  x : ℚ
  y : ℚ
  lifeInMiliseconds : ℚ
  speed : ℚ
  newParticlesPerSecond : ℤ
  startOfSecond : ℚ
  particlesCreatedThisSecond : ℚ
  active : Bool
  particlePool : List Particle
  currentParticlePoolIndex : ℕ
  maxParticles : ℕ
deriving DecidableEq, Repr

/-- The value-initialized ParticleEmitter constructor: new Particle[maxParticles]
default-initializes every slot (active = false). startTicks is SDL_GetTicks()
at construction. -/
def emitterInit (x y life speed : ℚ) (rate : ℤ) (maxP : ℕ) (startTicks : ℚ) : ParticleEmitter :=
  { x := x, y := y, lifeInMiliseconds := life, speed := speed
  , newParticlesPerSecond := rate, startOfSecond := startTicks
  , particlesCreatedThisSecond := 0, active := true
  , particlePool := List.replicate maxP (Particle.mk 0 0 0 0 0 0 false)
  , currentParticlePoolIndex := 0, maxParticles := maxP }

/-- One iteration of the spawn for loop in ParticleEmitter::OnUpdate: write a
fresh particle into the current pool slot, advance the ring index (wrapping
past maxParticles - 2 back to 0), and bump the created count. The two rand()
calls produce the velocity components; they are embedded as an oracle rv of
rational velocity samples. -/
def spawnOne (rv : ℕ → ℚ) (e : ParticleEmitter) : ParticleEmitter :=
  let particle : Particle :=
    { x := e.x, y := e.y, xVelocity := rv 0, yVelocity := rv 1
    , totalLifeTime := e.lifeInMiliseconds, lifeTimeRemaining := e.lifeInMiliseconds
    , active := true }
  let pool := e.particlePool.set e.currentParticlePoolIndex particle
  let idx := e.currentParticlePoolIndex + 1
  let idx := if (idx : ℤ) > (e.maxParticles : ℤ) - 2 then 0 else idx
  { e with particlePool := pool, currentParticlePoolIndex := idx,
           particlesCreatedThisSecond := e.particlesCreatedThisSecond + 1 }

/-- The spawn for loop, shifting the velocity oracle by two per particle. -/
def spawnLoop (rv : ℕ → ℚ) : ℕ → ParticleEmitter → ParticleEmitter
  | 0, e => e
  | n + 1, e => spawnLoop (fun m => rv (m + 2)) n (spawnOne rv e)

/-- The per-particle aging step of ParticleEmitter::OnUpdate (engine source
lines 994-1011): subtract deltaTime from the remaining lifetime; a result ≤ 0
deactivates the particle (and skips the position update); otherwise the
particle moves by velocity * speed * deltaTime. -/
def ageParticle (speed dt : ℚ) (p : Particle) : Particle :=
  if p.active then
    let rem := p.lifeTimeRemaining - dt
    if rem ≤ 0 then
      { p with lifeTimeRemaining := rem, active := false }
    else
      { p with lifeTimeRemaining := rem,
               x := p.x + p.xVelocity * speed * dt,
               y := p.y + p.yVelocity * speed * dt }
  else p

/-- ParticleEmitter::OnUpdate: if inactive do nothing; otherwise compute the
spawn target floor(elapsed * newParticlesPerSecond / 1000) against the fixed
startOfSecond (currentTime is SDL_GetTicks() at this tick), create the
shortfall, then age every pool slot. -/
def emitterOnUpdate (currentTime dt : ℚ) (rv : ℕ → ℚ) (e : ParticleEmitter) : ParticleEmitter :=
  if !e.active then e
  else
    let elapsedTimeInSecond := currentTime - e.startOfSecond
    let shouldHave : ℤ := ratTrunc (elapsedTimeInSecond * (e.newParticlesPerSecond : ℚ) / 1000)
    let e1 :=
      if (shouldHave : ℚ) > e.particlesCreatedThisSecond then
        spawnLoop rv (ratTrunc ((shouldHave : ℚ) - e.particlesCreatedThisSecond)).toNat e
      else e
    { e1 with particlePool := e1.particlePool.map (ageParticle e1.speed dt) }

/-- The alpha computed in ParticleEmitter::OnRender (engine source lines
1023-1024): int cross = lifeTimeRemaining * 255 (float-to-int truncation);
int alpha = cross / totalLifeTime (int-by-float division, truncated again). -/
def renderAlpha (p : Particle) : ℤ :=
  let cross : ℤ := ratTrunc (p.lifeTimeRemaining * 255)
  ratTrunc ((cross : ℚ) / p.totalLifeTime)

/-- ParticleEmitter::OnRender: one draw call per active pool slot, at the
particle position with the computed alpha. -/
def emitterOnRender (e : ParticleEmitter) : List (ℚ × ℚ × ℤ) :=
  e.particlePool.filterMap
    (fun p => if p.active then some (p.x, p.y, renderAlpha p) else none)

/-- The number of simultaneously active particles in the pool. -/
def countActive (e : ParticleEmitter) : ℕ :=
  (e.particlePool.filter (fun p => p.active)).length

/-- Emitter states reachable from a constructor call by any sequence of
OnUpdate ticks (arbitrary wall-clock times, delta times and velocity
oracles). -/
inductive EmitterReachable : ParticleEmitter → Prop
  | init (x y life speed : ℚ) (rate : ℤ) (maxP : ℕ) (t0 : ℚ) :
      EmitterReachable (emitterInit x y life speed rate maxP t0)
  | upd (t dt : ℚ) (rv : ℕ → ℚ) (e : ParticleEmitter) :
      EmitterReachable e → EmitterReachable (emitterOnUpdate t dt rv e)

/-- The four directional inputs, in the priority order of the if/else-if
chain of OnEventPlaying. -/
inductive Dir where
  | up
  | down
  | left
  | right
deriving DecidableEq, Repr

/-- The highest-priority directional key held in a snapshot (the branch of the
if/else-if chain of OnEventPlaying that fires). -/
def firstDir (keys : Keys) : Option Dir :=
  if keys.w || keys.up then some Dir.up
  else if keys.s || keys.down then some Dir.down
  else if keys.a || keys.left then some Dir.left
  else if keys.d || keys.right then some Dir.right
  else none

/-- The effect of one directional request on the velocity pair (x, y): the
requested unit vector, unless the request is the reversal of the currently
moving axis, in which case the velocity is kept. -/
def applyDir (d : Dir) (v : ℤ × ℤ) : ℤ × ℤ :=
  match d with
  | Dir.up => if v.2 ≠ 1 then (0, -1) else v
  | Dir.down => if v.2 ≠ -1 then (0, 1) else v
  | Dir.left => if v.1 ≠ 1 then (-1, 0) else v
  | Dir.right => if v.1 ≠ -1 then (1, 0) else v

/-! Concrete instances used by counterexamples and witnesses. -/

/-- Key snapshot holding only SPACE. -/
def keysSpace : Keys :=
  { space := true, w := false, up := false, s := false, down := false
  , a := false, left := false, d := false, right := false, escape := false }

/-- Key snapshot holding only LEFT. -/
def keysLeft : Keys :=
  { space := false, w := false, up := false, s := false, down := false
  , a := false, left := true, d := false, right := false, escape := false }

/-- rand() oracle whose first two draws place the apple at (9, 8), one cell in
front of the freshly initialized snake head. -/
def randAppleAhead : ℕ → ℕ := fun n => if n = 0 then 9 else 8

/-- rand() oracle whose draws alternate 3, 8, so every respawn sample is the
cell (3, 8). -/
def randRespawnTip : ℕ → ℕ := fun n => if n % 2 = 0 then 3 else 8

/-- rand() oracle that always returns 8, so every respawn sample is the cell
(8, 8). -/
def randConst8 : ℕ → ℕ := fun _ => 8

/-- rand() oracle that always returns 0. -/
def randZero : ℕ → ℕ := fun _ => 0

/-- The PLAYING state produced by pressing SPACE in the menu when the two
initial rand() draws give 9 and 8: snake of length 6 with head (8, 8) moving
right, apple directly ahead at (9, 8). -/
def gameAfterStart : Game := onEvent keysSpace randAppleAhead initialGame

/-- Same start, but the apple is placed at (0, 0), away from the snake path. -/
def gameAfterStartZ : Game := onEvent keysSpace randZero initialGame

/-- The post-insertion segment list present while the respawn search of the
gameAfterStart eating step runs: the new head (9, 8) followed by the six
pre-move segments; seven segments, of which the search checks only the first
six. -/
def tail7AfterEat : List Tail :=
  [Tail.mk 9 8, Tail.mk 8 8, Tail.mk 7 8, Tail.mk 6 8,
   Tail.mk 5 8, Tail.mk 4 8, Tail.mk 3 8]

/-- The game after one due step of gameAfterStart (deltaTime 200 ms) under the
oracle randRespawnTip: the head eats the apple at (9, 8) and the respawn
search accepts the cell (3, 8), which is still the tail tip. -/
def gamePostEat : Game :=
  { state := GameState.PLAYING
  , snake := { xVelocity := 1, yVelocity := 0, tail := tail7AfterEat, tailLength := 7 }
  , apple := { x := 3, y := 8 }
  , score := 1
  , secondAccumulator := 200
  , movesPerformedThisSecond := 1 }

/-- The result of the due-step body alone on gameAfterStart under
randRespawnTip (scheduler fields still at their initial 0). -/
def gameEaten : Game :=
  { state := GameState.PLAYING
  , snake := { xVelocity := 1, yVelocity := 0, tail := tail7AfterEat, tailLength := 7 }
  , apple := { x := 3, y := 8 }
  , score := 1
  , secondAccumulator := 0
  , movesPerformedThisSecond := 0 }

/-- The game after one due step of gameAfterStartZ (deltaTime 200 ms, no apple
eaten): the snake advanced one cell to the right. -/
def gamePostMove : Game :=
  { state := GameState.PLAYING
  , snake := { xVelocity := 1, yVelocity := 0
             , tail := [Tail.mk 9 8, Tail.mk 8 8, Tail.mk 7 8, Tail.mk 6 8,
                        Tail.mk 5 8, Tail.mk 4 8]
             , tailLength := 6 }
  , apple := { x := 0, y := 0 }
  , score := 0
  , secondAccumulator := 200
  , movesPerformedThisSecond := 1 }

/-- A particle as just spawned by an emitter constructed with
lifeInMiliseconds = 3/2. -/
def particleShort : Particle :=
  { x := 0, y := 0, xVelocity := 0, yVelocity := 0
  , totalLifeTime := 3 / 2, lifeTimeRemaining := 3 / 2, active := true }

/-- A particle as just spawned by an emitter constructed with
lifeInMiliseconds = 1000. -/
def particleLong : Particle :=
  { x := 0, y := 0, xVelocity := 0, yVelocity := 0
  , totalLifeTime := 1000, lifeTimeRemaining := 1000, active := true }

/-! Theorems. -/

/-- C6: the per-coordinate wrap maps any value above gridDimension - 1 to 0,
any negative value to gridDimension - 1, leaves every in-range value
unchanged, and is idempotent: wrap (wrap v) = wrap v. -/
theorem c6_wrap_characterization (g v : ℤ) (hg : 0 < g) :
    (g - 1 < v → wrapCoord g v = 0) ∧
    (v < 0 → wrapCoord g v = g - 1) ∧
    (0 ≤ v → v ≤ g - 1 → wrapCoord g v = v) ∧
    wrapCoord g (wrapCoord g v) = wrapCoord g v := by
  refine ⟨?_, ?_, ?_, ?_⟩ <;> unfold wrapCoord <;> split_ifs <;> omega

/-- Witness for C6 at the configured grid width 20 and the off-grid value 20
reached by moving right from the last column. -/
theorem c6_wrap_witness :
    (0 : ℤ) < 20 ∧
    (((20 : ℤ) - 1 < 20 → wrapCoord 20 20 = 0) ∧
     ((20 : ℤ) < 0 → wrapCoord 20 20 = 20 - 1) ∧
     ((0 : ℤ) ≤ 20 → (20 : ℤ) ≤ 20 - 1 → wrapCoord 20 20 = 20) ∧
     wrapCoord 20 (wrapCoord 20 20) = wrapCoord 20 20) :=
  ⟨by decide, c6_wrap_characterization 20 20 (by decide)⟩

/-- C3 counterexample: from the initial scheduler state, a 140 ms frame leaves
the reachable state (accumulator 140, performed 1); on a following 10 ms frame
the code signals a step as due (the int performed count is compared against
the un-floored value 1.5), although the performed count 1 is not less than
floor(150 * movesPerSecond / 1000) = 1, contradicting the floor-based
criterion of the claim. -/
theorem c3_counterexample :
    schedFrame 140 0 0 = (140, 1, true) ∧
    (schedFrame 10 140 1).2.2 = true ∧
    ¬ ((1 : ℤ) < ⌊(140 + 10 : ℚ) * movesPerSecond / 1000⌋) := by
  refine ⟨by norm_num [schedFrame, movesPerSecond], by norm_num [schedFrame, movesPerSecond], ?_⟩
  rw [show ((140 + 10 : ℚ) * movesPerSecond / 1000) = 3 / 2 by norm_num [movesPerSecond]]
  rw [show ⌊(3 / 2 : ℚ)⌋ = 1 by rw [Int.floor_eq_iff]; norm_num]
  norm_num

/-- C3 (amended): each PLAYING frame the scheduler first adds the delta time
to the accumulator; if the result is at least 1000 it resets accumulator and
performed count; it signals a step as due, incrementing the performed count,
if and only if the performed count is less than
accumulator * movesPerSecond / 1000 compared exactly (no floor is taken); at
most one step is due per frame (the due flag of a frame is a single Bool). -/
theorem c3_scheduler_frame (dt acc : ℚ) (performed : ℤ) :
    (schedFrame dt acc performed).1 = (if acc + dt ≥ 1000 then 0 else acc + dt) ∧
    ((schedFrame dt acc performed).2.2 = true ↔
      ((if acc + dt ≥ 1000 then 0 else (performed : ℚ)) <
        (if acc + dt ≥ 1000 then 0 else acc + dt) * movesPerSecond / 1000)) ∧
    (schedFrame dt acc performed).2.1 =
      (if acc + dt ≥ 1000 then 0 else performed) +
        (if (schedFrame dt acc performed).2.2 then 1 else 0) := by
  unfold schedFrame
  by_cases hr : acc + dt ≥ 1000
  · simp only [if_pos hr]
    by_cases hd : (((0 : ℤ) : ℚ)) < (0 : ℚ) * movesPerSecond / 1000
    · simp [hd]
    · simp [hd]
  · simp only [if_neg hr]
    by_cases hd : ((performed : ℚ)) < (acc + dt) * movesPerSecond / 1000
    · simp [hd]
    · simp [hd]

/-- Witness for C3 (amended) at the concrete frame of the counterexample. -/
theorem c3_scheduler_frame_witness :
    (schedFrame 10 140 1).1 = (if (140 : ℚ) + 10 ≥ 1000 then 0 else 140 + 10) ∧
    ((schedFrame 10 140 1).2.2 = true ↔
      ((if (140 : ℚ) + 10 ≥ 1000 then 0 else ((1 : ℤ) : ℚ)) <
        (if (140 : ℚ) + 10 ≥ 1000 then 0 else 140 + 10) * movesPerSecond / 1000)) ∧
    (schedFrame 10 140 1).2.1 =
      (if (140 : ℚ) + 10 ≥ 1000 then 0 else 1) +
        (if (schedFrame 10 140 1).2.2 then 1 else 0) :=
  c3_scheduler_frame 10 140 1

/-- C4 counterexample: the positive delta times 999, 1 sum to exactly 1000 ms,
yet only one step is signaled as due across the two frames, not
movesPerSecond = 10: the scheduler issues at most one step per frame. -/
theorem c4_counterexample :
    (0 : ℚ) < 999 ∧ (0 : ℚ) < 1 ∧ ([(999 : ℚ), 1].sum = 1000) ∧
    (schedRun [(999 : ℚ), 1] 0 0).2.2 = 1 ∧
    ¬ ((schedRun [(999 : ℚ), 1] 0 0).2.2 = 10) := by
  have e1 : schedFrame 999 0 0 = (999, 1, true) := by
    norm_num [schedFrame, movesPerSecond]
  have e2 : schedFrame 1 999 1 = (0, 0, false) := by
    norm_num [schedFrame, movesPerSecond]
  have run : schedRun [(999 : ℚ), 1] 0 0 = (0, 0, 1) := by
    simp [schedRun, e1, e2]
  refine ⟨by norm_num, by norm_num, by norm_num [List.sum_cons], by rw [run], by rw [run]; norm_num⟩

/-- Helper for C4: running the scheduler over positive delta times whose sum
completes a 1000 ms window from accumulator position acc, starting from a
performed count below acc * movesPerSecond / 1000 + 1, ends in the reset state
(0, 0) and issues at most 10 - performed further steps. -/
lemma schedRun_window (dts : List ℚ) :
    ∀ (acc : ℚ) (performed : ℤ),
      dts ≠ [] → (∀ dt ∈ dts, 0 < dt) → 0 ≤ acc → acc + dts.sum = 1000 →
      (performed : ℚ) < acc * movesPerSecond / 1000 + 1 →
      (schedRun dts acc performed).1 = 0 ∧ (schedRun dts acc performed).2.1 = 0 ∧
      ((schedRun dts acc performed).2.2 : ℚ) + (performed : ℚ) ≤ 10 := by
  induction dts with
  | nil => intro acc performed hne; exact absurd rfl hne
  | cons dt rest ih =>
    intro acc performed _ hpos hacc hsum hinv
    have hdtpos : 0 < dt := hpos dt (List.mem_cons_self dt rest)
    rcases eq_or_ne rest [] with hrest | hrest
    · subst hrest
      have hsum1 : acc + dt = 1000 := by
        simpa using hsum
      have hframe : schedFrame dt acc performed = (0, 0, false) := by
        unfold schedFrame
        norm_num [hsum1, movesPerSecond]
      have hperf : (performed : ℚ) ≤ 10 := by
        have h1 : acc < 1000 := by linarith
        have h2 : (performed : ℚ) < 11 := by
          have : acc * movesPerSecond / 1000 < 10 := by
            rw [movesPerSecond]; linarith
          linarith
        have h3 : performed < 11 := by exact_mod_cast h2
        have h4 : performed ≤ 10 := by omega
        exact_mod_cast h4
      simp [schedRun, hframe, hperf]
    · have hrsum : 0 < rest.sum := List.sum_pos rest (fun x hx => hpos x (List.mem_cons_of_mem dt hx)) hrest
      have hsum1 : acc + dt + rest.sum = 1000 := by
        rw [add_assoc]
        simpa using hsum
      have hlt : ¬ (acc + dt ≥ 1000) := by
        simp only [ge_iff_le, not_le]
        linarith
      have hacc1 : 0 ≤ acc + dt := by linarith
      by_cases hdue : (performed : ℚ) < (acc + dt) * movesPerSecond / 1000
      · have hframe : schedFrame dt acc performed = (acc + dt, performed + 1, true) := by
          unfold schedFrame
          simp [hlt, hdue]
        have hinv1 : ((performed + 1 : ℤ) : ℚ) < (acc + dt) * movesPerSecond / 1000 + 1 := by
          push_cast
          linarith
        obtain ⟨ha, hp, hc⟩ := ih (acc + dt) (performed + 1) hrest
          (fun x hx => hpos x (List.mem_cons_of_mem dt hx)) hacc1 hsum1 hinv1
        refine ⟨?_, ?_, ?_⟩
        · simpa [schedRun, hframe] using ha
        · simpa [schedRun, hframe] using hp
        · have hcount : (schedRun (dt :: rest) acc performed).2.2 =
              1 + (schedRun rest (acc + dt) (performed + 1)).2.2 := by
            simp [schedRun, hframe]
          rw [hcount]
          push_cast
          push_cast at hc
          linarith
      · have hframe : schedFrame dt acc performed = (acc + dt, performed, false) := by
          unfold schedFrame
          simp [hlt, hdue]
        have hmono : acc * movesPerSecond / 1000 ≤ (acc + dt) * movesPerSecond / 1000 := by
          rw [movesPerSecond]
          linarith
        have hinv1 : (performed : ℚ) < (acc + dt) * movesPerSecond / 1000 + 1 := by
          linarith
        obtain ⟨ha, hp, hc⟩ := ih (acc + dt) performed hrest
          (fun x hx => hpos x (List.mem_cons_of_mem dt hx)) hacc1 hsum1 hinv1
        refine ⟨?_, ?_, ?_⟩
        · simpa [schedRun, hframe] using ha
        · simpa [schedRun, hframe] using hp
        · have hcount : (schedRun (dt :: rest) acc performed).2.2 =
              (schedRun rest (acc + dt) performed).2.2 := by
            simp [schedRun, hframe]
          rw [hcount]
          exact hc

/-- C4 (amended): for every sequence of positive per-frame delta times summing
to exactly 1000 ms, the number of steps the Move Scheduler signals as due
across those frames is at most movesPerSecond = 10 (the scheduler issues at
most one step per frame, so short windows can fall below the rate), and the
accumulator and moves-performed count are reset to 0 on the frame at which
the 1000 ms window boundary is reached. -/
theorem c4_window_bound (dts : List ℚ) (hpos : ∀ dt ∈ dts, 0 < dt)
    (hsum : dts.sum = 1000) :
    (schedRun dts 0 0).2.2 ≤ 10 ∧
    (schedRun dts 0 0).1 = 0 ∧ (schedRun dts 0 0).2.1 = 0 := by
  have hne : dts ≠ [] := by
    intro h
    rw [h] at hsum
    simp at hsum
  have hinv : ((0 : ℤ) : ℚ) < 0 * movesPerSecond / 1000 + 1 := by norm_num
  obtain ⟨ha, hp, hc⟩ := schedRun_window dts 0 0 hne hpos le_rfl (by simpa using hsum) hinv
  refine ⟨?_, ha, hp⟩
  have : ((schedRun dts 0 0).2.2 : ℚ) ≤ 10 := by simpa using hc
  exact_mod_cast this

/-- Witness for C4 (amended): ten frames of 100 ms each. -/
theorem c4_window_bound_witness :
    (schedRun [(100 : ℚ), 100, 100, 100, 100, 100, 100, 100, 100, 100] 0 0).2.2 ≤ 10 ∧
    (schedRun [(100 : ℚ), 100, 100, 100, 100, 100, 100, 100, 100, 100] 0 0).1 = 0 ∧
    (schedRun [(100 : ℚ), 100, 100, 100, 100, 100, 100, 100, 100, 100] 0 0).2.1 = 0 :=
  c4_window_bound _ (by intro dt h; fin_cases h <;> norm_num) (by norm_num [List.sum_cons])

/-- Helper: a position returned by the respawn search passes the collision
check against the first tailLength segments. -/
lemma respawnSearch_valid (r : ℕ → ℕ) (tl : List Tail) (len : ℤ) :
    ∀ (fuel k : ℕ) (ax ay : ℤ) (kf : ℕ),
      respawnSearch r tl len fuel k = some ((ax, ay), kf) →
      segHit tl len ax ay = false := by
  intro fuel
  induction fuel with
  | zero => intro k ax ay kf h; simp [respawnSearch] at h
  | succ n ih =>
    intro k ax ay kf h
    simp only [respawnSearch] at h
    by_cases hc : segHit tl len ((r k % GRID_WIDTH.toNat : ℕ) : ℤ)
        ((r (k + 1) % GRID_HEIGHT.toNat : ℕ) : ℤ) = true
    · rw [if_pos hc] at h
      exact ih (k + 2) ax ay kf h
    · rw [if_neg hc] at h
      simp only [Option.some.injEq, Prod.mk.injEq] at h
      obtain ⟨⟨h1, h2⟩, -⟩ := h
      rw [← h1, ← h2]
      exact Bool.eq_false_iff.mpr hc

/-- Helper: characterization of a completed due step (the body of the
moveThisFrameUpdate block). -/
lemma stepSnakeDue_spec (r : ℕ → ℕ) (fuel : ℕ) (g g' : Game)
    (h : stepSnakeDue r fuel g = some g') :
    g'.state = (if segHit g.snake.tail g.snake.tailLength (newHeadOf g).x (newHeadOf g).y
                then GameState.LOSE else g.state) ∧
    (newHeadOf g = Tail.mk g.apple.x g.apple.y →
      g'.snake.tail = newHeadOf g :: g.snake.tail ∧
      g'.snake.tailLength = g.snake.tailLength + 1) ∧
    (newHeadOf g ≠ Tail.mk g.apple.x g.apple.y →
      g'.snake.tail = (newHeadOf g :: g.snake.tail).dropLast ∧
      g'.snake.tailLength = g.snake.tailLength ∧ g'.apple = g.apple) ∧
    (g'.apple = g.apple ∨
      segHit (newHeadOf g :: g.snake.tail) g.snake.tailLength g'.apple.x g'.apple.y = false) := by
  simp only [stepSnakeDue] at h
  by_cases heat : ((newHeadOf g).x == g.apple.x && ((newHeadOf g).y == g.apple.y)) = true
  · have hnh : newHeadOf g = Tail.mk g.apple.x g.apple.y := by
      simp only [Bool.and_eq_true, beq_iff_eq] at heat
      calc newHeadOf g = Tail.mk (newHeadOf g).x (newHeadOf g).y := rfl
        _ = Tail.mk g.apple.x g.apple.y := by rw [heat.1, heat.2]
    rw [if_pos heat] at h
    rcases hr : respawnSearch r (newHeadOf g :: g.snake.tail) g.snake.tailLength fuel 0 with
      - | ⟨⟨ax, ay⟩, kf⟩
    · rw [hr] at h; exact absurd h (by simp)
    · rw [hr] at h
      simp only [Option.some.injEq] at h
      subst h
      refine ⟨rfl, fun _ => ⟨rfl, rfl⟩, fun hne => absurd hnh hne, Or.inr ?_⟩
      exact respawnSearch_valid r (newHeadOf g :: g.snake.tail) g.snake.tailLength fuel 0 ax ay kf hr
  · have hnh : newHeadOf g ≠ Tail.mk g.apple.x g.apple.y := by
      intro he
      apply heat
      have hx : (newHeadOf g).x = g.apple.x := by rw [he]
      have hy : (newHeadOf g).y = g.apple.y := by rw [he]
      simp [hx, hy]
    rw [if_neg heat] at h
    simp only [Option.some.injEq] at h
    subst h
    exact ⟨rfl, fun he => absurd he hnh, fun _ => ⟨rfl, rfl, rfl⟩, Or.inl rfl⟩

/-- Helper: evaluating one PLAYING frame whose scheduler signals a due step
that completes. -/
lemma onUpdatePlaying_due (dt : ℚ) (r : ℕ → ℕ) (fuel : ℕ) (g : Game) (acc1 : ℚ)
    (p1 : ℤ) (g2 : Game)
    (hs : schedFrame dt g.secondAccumulator g.movesPerformedThisSecond = (acc1, p1, true))
    (hstep : stepSnakeDue r fuel
        { g with secondAccumulator := acc1, movesPerformedThisSecond := p1 } = some g2) :
    onUpdatePlaying dt r fuel g = some (g2, renderSegs g2) := by
  unfold onUpdatePlaying
  rw [hs]
  simp [hstep]

/-- Helper: evaluating one PLAYING frame with no due step. -/
lemma onUpdatePlaying_notdue (dt : ℚ) (r : ℕ → ℕ) (fuel : ℕ) (g : Game) (acc1 : ℚ)
    (p1 : ℤ)
    (hs : schedFrame dt g.secondAccumulator g.movesPerformedThisSecond = (acc1, p1, false)) :
    onUpdatePlaying dt r fuel g =
      some ({ g with secondAccumulator := acc1, movesPerformedThisSecond := p1 },
        renderSegs { g with secondAccumulator := acc1, movesPerformedThisSecond := p1 }) := by
  unfold onUpdatePlaying
  rw [hs]
  simp

/-- C1 counterexample: from the freshly initialized game whose apple landed at
(9, 8), the 200 ms frame is due, the head eats the apple, and under the rand()
oracle that yields the cell (3, 8) the respawn search accepts (3, 8) — which
is the tail tip, an occupied cell of the post-growth 7-segment snake.  The
claim that the chosen apple avoids all tailLength + 1 post-growth segments is
therefore false: the search checks only the first tailLength = 6. -/
theorem c1_counterexample :
    onUpdate 200 randRespawnTip 1 gameAfterStart = some (gamePostEat, renderSegs gamePostEat) ∧
    gamePostEat.apple = Apple.mk 3 8 ∧
    gamePostEat.snake.tailLength = 7 ∧
    Tail.mk gamePostEat.apple.x gamePostEat.apple.y ∈ gamePostEat.snake.tail := by
  have hs : schedFrame 200 gameAfterStart.secondAccumulator
      gameAfterStart.movesPerformedThisSecond = (200, 1, true) := by
    norm_num [schedFrame, movesPerSecond, gameAfterStart, onEvent, onEventMenu,
      initPlayingState, initialGame, keysSpace]
  have hstep : stepSnakeDue randRespawnTip 1
      { gameAfterStart with secondAccumulator := 200, movesPerformedThisSecond := 1 } =
      some gamePostEat := by rfl
  exact ⟨onUpdatePlaying_due 200 randRespawnTip 1 gameAfterStart 200 1 gamePostEat hs hstep,
    rfl, rfl, by decide⟩

/-- C1 (corrected): on a completed due step, either the apple is unchanged (no
eating) or the respawned apple position misses every one of the first
tailLength segments of the post-insertion snake — all post-growth segments
except the tail tip, which the search does not examine. -/
theorem c1_respawn_misses_checked (r : ℕ → ℕ) (fuel : ℕ) (g g' : Game)
    (hstep : stepSnakeDue r fuel g = some g') :
    g'.apple = g.apple ∨
    segHit (newHeadOf g :: g.snake.tail) g.snake.tailLength g'.apple.x g'.apple.y = false :=
  (stepSnakeDue_spec r fuel g g' hstep).2.2.2

/-- Witness for C1 (corrected) at the eating step of the counterexample
trace. -/
theorem c1_respawn_misses_checked_witness :
    gameEaten.apple = gameAfterStart.apple ∨
    segHit (newHeadOf gameAfterStart :: gameAfterStart.snake.tail)
      gameAfterStart.snake.tailLength gameEaten.apple.x gameEaten.apple.y = false :=
  c1_respawn_misses_checked randRespawnTip 1 gameAfterStart gameEaten (by rfl)

/-- Helper for C5: under the constant-8 oracle every sample of the respawn
search against tail7AfterEat is the occupied cell (8, 8), so the loop never
exits, whatever the fuel. -/
lemma respawnSearch_const8_none :
    ∀ (fuel k : ℕ), respawnSearch randConst8 tail7AfterEat 6 fuel k = none := by
  intro fuel
  induction fuel with
  | zero => intro k; rfl
  | succ n ih =>
    intro k
    have hc : segHit tail7AfterEat 6 ((randConst8 k % GRID_WIDTH.toNat : ℕ) : ℤ)
        ((randConst8 (k + 1) % GRID_HEIGHT.toNat : ℕ) : ℤ) = true := by
      simp only [randConst8]
      decide
    simp only [respawnSearch]
    rw [if_pos hc]
    exact ih (k + 2)

/-- C5 counterexample: the seven-segment configuration reached by the eating
step of the c1 trace (its first conjunct ties it to that reachable step), fed
the random stream that always returns 8, makes the respawn search run forever:
every sample is the occupied cell (8, 8).  Termination does not hold for every
random stream. -/
theorem c5_counterexample :
    newHeadOf gameAfterStart :: gameAfterStart.snake.tail = tail7AfterEat ∧
    ¬ ∃ fuel : ℕ, (respawnSearch randConst8 tail7AfterEat 6 fuel 0).isSome = true := by
  refine ⟨by decide, ?_⟩
  rintro ⟨fuel, hf⟩
  rw [respawnSearch_const8_none fuel 0] at hf
  simp at hf

/-- Helper: if the sample at offset j is valid, fuel j + 1 makes the respawn
search succeed. -/
lemma respawnSearch_some_of_valid (r : ℕ → ℕ) (tl : List Tail) (len : ℤ) :
    ∀ (j k : ℕ),
      segHit tl len ((r (k + 2 * j) % GRID_WIDTH.toNat : ℕ) : ℤ)
        ((r (k + 2 * j + 1) % GRID_HEIGHT.toNat : ℕ) : ℤ) = false →
      (respawnSearch r tl len (j + 1) k).isSome = true := by
  intro j
  induction j with
  | zero =>
    intro k h
    simp only [Nat.mul_zero, Nat.add_zero] at h
    simp only [respawnSearch]
    rw [if_neg (by rw [h]; exact Bool.false_ne_true)]
    rfl
  | succ n ih =>
    intro k h
    simp only [respawnSearch]
    by_cases hc : segHit tl len ((r k % GRID_WIDTH.toNat : ℕ) : ℤ)
        ((r (k + 1) % GRID_HEIGHT.toNat : ℕ) : ℤ) = true
    · rw [if_pos hc]
      apply ih (k + 2)
      rw [show k + 2 + 2 * n = k + 2 * (n + 1) from by ring]
      exact h
    · rw [if_neg hc]
      rfl

/-- Helper: a successful respawn search implies some sample offset is valid. -/
lemma respawnSearch_valid_of_some (r : ℕ → ℕ) (tl : List Tail) (len : ℤ) :
    ∀ (fuel k : ℕ), (respawnSearch r tl len fuel k).isSome = true →
      ∃ j : ℕ, segHit tl len ((r (k + 2 * j) % GRID_WIDTH.toNat : ℕ) : ℤ)
        ((r (k + 2 * j + 1) % GRID_HEIGHT.toNat : ℕ) : ℤ) = false := by
  intro fuel
  induction fuel with
  | zero => intro k h; simp [respawnSearch] at h
  | succ n ih =>
    intro k h
    simp only [respawnSearch] at h
    by_cases hc : segHit tl len ((r k % GRID_WIDTH.toNat : ℕ) : ℤ)
        ((r (k + 1) % GRID_HEIGHT.toNat : ℕ) : ℤ) = true
    · rw [if_pos hc] at h
      obtain ⟨j, hj⟩ := ih (k + 2) h
      refine ⟨j + 1, ?_⟩
      rw [show k + 2 * (j + 1) = k + 2 + 2 * j from by ring]
      exact hj
    · refine ⟨0, ?_⟩
      simp only [Nat.mul_zero, Nat.add_zero]
      exact Bool.eq_false_iff.mpr hc

/-- C5 (corrected): the rejection-sampling respawn search does not terminate
for every random stream; it terminates (for some fuel) precisely for those
streams that eventually produce a sample missing all of the first tailLength
checked segments. -/
theorem c5_termination_iff (r : ℕ → ℕ) (tl : List Tail) (len : ℤ) (k : ℕ) :
    (∃ fuel : ℕ, (respawnSearch r tl len fuel k).isSome = true) ↔
    (∃ j : ℕ, segHit tl len ((r (k + 2 * j) % GRID_WIDTH.toNat : ℕ) : ℤ)
        ((r (k + 2 * j + 1) % GRID_HEIGHT.toNat : ℕ) : ℤ) = false) := by
  constructor
  · rintro ⟨fuel, h⟩
    exact respawnSearch_valid_of_some r tl len fuel k h
  · rintro ⟨j, h⟩
    exact ⟨j + 1, respawnSearch_some_of_valid r tl len j k h⟩

/-- Witness for C5 (corrected): on the counterexample configuration the
randRespawnTip stream finds the free cell (3, 8) at the first sample, and the
search indeed succeeds with some fuel. -/
theorem c5_termination_iff_witness :
    ∃ fuel : ℕ, (respawnSearch randRespawnTip tail7AfterEat 6 fuel 0).isSome = true :=
  (c5_termination_iff randRespawnTip tail7AfterEat 6 0).mpr ⟨0, by decide⟩

/-- C7: on every completed due step, eating (new head equal to the apple)
increments the recorded tailLength by exactly 1 and removes no segment — the
segment list grows by exactly the inserted head; not eating removes exactly
the last segment of the post-insertion list, leaving both the segment count
and the recorded tailLength unchanged. -/
theorem c7_growth_shrink (r : ℕ → ℕ) (fuel : ℕ) (g g' : Game)
    (hstep : stepSnakeDue r fuel g = some g') :
    (newHeadOf g = Tail.mk g.apple.x g.apple.y →
      g'.snake.tail = newHeadOf g :: g.snake.tail ∧
      g'.snake.tail.length = g.snake.tail.length + 1 ∧
      g'.snake.tailLength = g.snake.tailLength + 1) ∧
    (newHeadOf g ≠ Tail.mk g.apple.x g.apple.y →
      g'.snake.tail = (newHeadOf g :: g.snake.tail).dropLast ∧
      g'.snake.tail.length = g.snake.tail.length ∧
      g'.snake.tailLength = g.snake.tailLength) := by
  obtain ⟨-, heat, hnoeat, -⟩ := stepSnakeDue_spec r fuel g g' hstep
  constructor
  · intro he
    obtain ⟨h1, h2⟩ := heat he
    exact ⟨h1, by rw [h1]; simp, h2⟩
  · intro he
    obtain ⟨h1, h2, -⟩ := hnoeat he
    refine ⟨h1, ?_, h2⟩
    rw [h1]
    simp

/-- Witness for C7 at the eating step of the c1 trace. -/
theorem c7_growth_shrink_witness :
    (newHeadOf gameAfterStart = Tail.mk gameAfterStart.apple.x gameAfterStart.apple.y →
      gameEaten.snake.tail = newHeadOf gameAfterStart :: gameAfterStart.snake.tail ∧
      gameEaten.snake.tail.length = gameAfterStart.snake.tail.length + 1 ∧
      gameEaten.snake.tailLength = gameAfterStart.snake.tailLength + 1) ∧
    (newHeadOf gameAfterStart ≠ Tail.mk gameAfterStart.apple.x gameAfterStart.apple.y →
      gameEaten.snake.tail = (newHeadOf gameAfterStart :: gameAfterStart.snake.tail).dropLast ∧
      gameEaten.snake.tail.length = gameAfterStart.snake.tail.length ∧
      gameEaten.snake.tailLength = gameAfterStart.snake.tailLength) :=
  c7_growth_shrink randRespawnTip 1 gameAfterStart gameEaten (by rfl)

/-- Helper: the two possible outcomes of the menu event handler. -/
lemma onEventMenu_cases (keys : Keys) (r : ℕ → ℕ) (g : Game) :
    onEventMenu keys r g = initPlayingState r { g with state := GameState.PLAYING } ∨
    onEventMenu keys r g = g := by
  unfold onEventMenu
  split_ifs
  · exact Or.inl rfl
  · exact Or.inr rfl

/-- Helper: InitPlayingState always yields a 6-segment tail with recorded
length 6 and keeps the state field of its argument. -/
lemma initPlayingState_fields (r : ℕ → ℕ) (g : Game) :
    (initPlayingState r g).snake.tail.length = 6 ∧
    (initPlayingState r g).snake.tailLength = 6 ∧
    (initPlayingState r g).state = g.state := by
  exact ⟨rfl, rfl, rfl⟩

/-- Helper: the PLAYING event handler never touches the tail and moves the
state only to MENU (via ESCAPE) if at all. -/
lemma onEventPlaying_fields (keys : Keys) (g : Game) :
    (onEventPlaying keys g).snake.tail = g.snake.tail ∧
    (onEventPlaying keys g).snake.tailLength = g.snake.tailLength ∧
    ((onEventPlaying keys g).state = g.state ∨
      (onEventPlaying keys g).state = GameState.MENU) := by
  unfold onEventPlaying
  split_ifs <;> simp

/-- Helper: outcome analysis of one PLAYING frame update. -/
lemma onUpdatePlaying_cases (dt : ℚ) (r : ℕ → ℕ) (fuel : ℕ) (g g' : Game) (out : List Tail)
    (h : onUpdatePlaying dt r fuel g = some (g', out)) :
    out = renderSegs g' ∧
    ((g'.snake = g.snake ∧ g'.state = g.state ∧ g'.apple = g.apple ∧
        (schedFrame dt g.secondAccumulator g.movesPerformedThisSecond).2.2 = false) ∨
     ((schedFrame dt g.secondAccumulator g.movesPerformedThisSecond).2.2 = true ∧
       stepSnakeDue r fuel
         { g with
           secondAccumulator :=
             (schedFrame dt g.secondAccumulator g.movesPerformedThisSecond).1
         , movesPerformedThisSecond :=
             (schedFrame dt g.secondAccumulator g.movesPerformedThisSecond).2.1 } =
         some g')) := by
  unfold onUpdatePlaying at h
  rcases hs : schedFrame dt g.secondAccumulator g.movesPerformedThisSecond with ⟨acc1, p1, due⟩
  rw [hs] at h
  cases due with
  | false =>
    simp only [Bool.false_eq_true, if_false, ite_false, Option.some.injEq, Prod.mk.injEq] at h
    obtain ⟨hg, hout⟩ := h
    subst hg
    exact ⟨hout.symm, Or.inl ⟨rfl, rfl, rfl, rfl⟩⟩
  | true =>
    simp only [if_true, ite_true] at h
    rcases hstep : stepSnakeDue r fuel
        { g with secondAccumulator := acc1, movesPerformedThisSecond := p1 } with - | g2
    · rw [hstep] at h
      exact absurd h (by simp)
    · rw [hstep] at h
      simp only [Option.some.injEq, Prod.mk.injEq] at h
      obtain ⟨hg, hout⟩ := h
      subst hg
      exact ⟨hout.symm, Or.inr ⟨rfl, rfl⟩⟩

/-- Helper: the central structural invariant.  In every reachable game state
the segment list length equals the recorded tailLength (as the loop iteration
count toNat), and in PLAYING the recorded tailLength is at least the starting
length 6. -/
lemma reachable_invariant (g : Game) (h : Reachable g) :
    g.snake.tail.length = g.snake.tailLength.toNat ∧
    (g.state = GameState.PLAYING → 6 ≤ g.snake.tailLength) := by
  induction h with
  | init =>
    refine ⟨rfl, ?_⟩
    intro hp
    simp [initialGame] at hp
  | ev keys r g hg ih =>
    rcases hgs : g.state with - | - | - | -
    all_goals simp only [onEvent, hgs]
    case MENU | LOSE =>
      rcases onEventMenu_cases keys r g with he | he <;> rw [he]
      · obtain ⟨h1, h2, h3⟩ := initPlayingState_fields r { g with state := GameState.PLAYING }
        refine ⟨by rw [h1, h2]; rfl, fun _ => by rw [h2]⟩
      · exact ih
    case PLAYING =>
      obtain ⟨h1, h2, h3⟩ := onEventPlaying_fields keys g
      refine ⟨by rw [h1, h2]; exact ih.1, ?_⟩
      intro hp
      rcases h3 with h3 | h3
      · rw [h2]
        exact ih.2 (by rw [← h3, hp])
      · rw [h3] at hp
        exact absurd hp (by simp)
    case PAUSE =>
      refine ⟨ih.1, ?_⟩
      intro hp
      exact absurd hp (by simp)
  | upd dt r fuel g g' out hg hupd ih =>
    rcases hgs : g.state with - | - | - | -
    case MENU | LOSE | PAUSE =>
      simp only [onUpdate, hgs, Option.some.injEq, Prod.mk.injEq] at hupd
      obtain ⟨hg2, -⟩ := hupd
      subst hg2
      exact ih
    case PLAYING =>
      have hupd1 : onUpdatePlaying dt r fuel g = some (g', out) := by
        simpa only [onUpdate, hgs] using hupd
      obtain ⟨-, hcase⟩ := onUpdatePlaying_cases dt r fuel g g' out hupd1
      have hp6 : 6 ≤ g.snake.tailLength := ih.2 hgs
      rcases hcase with ⟨hsnake, hstate, -, -⟩ | ⟨-, hstep⟩
      · rw [hsnake, hstate, hgs]
        exact ⟨ih.1, fun _ => hp6⟩
      · set g1 : Game :=
          { g with
            secondAccumulator :=
              (schedFrame dt g.secondAccumulator g.movesPerformedThisSecond).1
          , movesPerformedThisSecond :=
              (schedFrame dt g.secondAccumulator g.movesPerformedThisSecond).2.1 } with hg1
        obtain ⟨hstate, heat, hnoeat, -⟩ := stepSnakeDue_spec r fuel g1 g' hstep
        have hsn : g1.snake = g.snake := rfl
        have hst : g1.state = GameState.PLAYING := hgs
        by_cases he : newHeadOf g1 = Tail.mk g1.apple.x g1.apple.y
        · obtain ⟨h1, h2⟩ := heat he
          constructor
          · rw [h1, h2, hsn, List.length_cons, ih.1]
            omega
          · intro _
            rw [h2, hsn]
            omega
        · obtain ⟨h1, h2, -⟩ := hnoeat he
          constructor
          · rw [h1, h2, hsn]
            simp [ih.1]
          · intro _
            rw [h2, hsn]
            exact hp6

/-- C10: in every reachable state the segment-vector length equals the
recorded tailLength (the loop iteration count); in PLAYING the recorded
tailLength is at least 6, the vector is nonempty (so the head read tail[0] is
in bounds), and every index i < tailLength driven by the collision-check and
render loops is within the vector bounds. -/
theorem c10_length_matches_tailLength (g : Game) (hreach : Reachable g) :
    g.snake.tail.length = g.snake.tailLength.toNat ∧
    (g.state = GameState.PLAYING →
      6 ≤ g.snake.tailLength ∧ 0 < g.snake.tail.length ∧
      ∀ i : ℕ, i < g.snake.tailLength.toNat → i < g.snake.tail.length) := by
  obtain ⟨h1, h2⟩ := reachable_invariant g hreach
  refine ⟨h1, fun hp => ?_⟩
  have h6 := h2 hp
  refine ⟨h6, ?_, ?_⟩
  · rw [h1]
    omega
  · intro i hi
    rw [h1]
    exact hi

/-- Witness for C10 at the reachable freshly started game. -/
theorem c10_length_matches_tailLength_witness :
    gameAfterStart.snake.tail.length = gameAfterStart.snake.tailLength.toNat ∧
    (gameAfterStart.state = GameState.PLAYING →
      6 ≤ gameAfterStart.snake.tailLength ∧ 0 < gameAfterStart.snake.tail.length ∧
      ∀ i : ℕ, i < gameAfterStart.snake.tailLength.toNat →
        i < gameAfterStart.snake.tail.length) :=
  c10_length_matches_tailLength gameAfterStart
    (Reachable.ev keysSpace randAppleAhead initialGame Reachable.init)

/-- C2: on any frame update of a reachable PLAYING state, the resulting state
is LOSE exactly when the frame is due and the wrapped new head hits one of
the tailLength pre-move segments; on every due frame (the losing one
included) the new head is inserted at the front of the segment list and
leads the rendered segment list of the frame. -/
theorem c2_lose_transition (g : Game) (hreach : Reachable g)
    (hplay : g.state = GameState.PLAYING) (dt : ℚ) (r : ℕ → ℕ) (fuel : ℕ)
    (g' : Game) (out : List Tail)
    (hupd : onUpdate dt r fuel g = some (g', out)) :
    (g'.state = GameState.LOSE ↔
      ((schedFrame dt g.secondAccumulator g.movesPerformedThisSecond).2.2 = true ∧
        segHit g.snake.tail g.snake.tailLength (newHeadOf g).x (newHeadOf g).y = true)) ∧
    ((schedFrame dt g.secondAccumulator g.movesPerformedThisSecond).2.2 = true →
      g'.snake.tail.head? = some (newHeadOf g) ∧ out.head? = some (newHeadOf g)) := by
  have hupd1 : onUpdatePlaying dt r fuel g = some (g', out) := by
    simpa only [onUpdate, hplay] using hupd
  obtain ⟨hout, hcase⟩ := onUpdatePlaying_cases dt r fuel g g' out hupd1
  obtain ⟨hlen, hp6⟩ := reachable_invariant g hreach
  have h6 := hp6 hplay
  rcases hcase with ⟨hsnake, hstate, -, hdue⟩ | ⟨hdue, hstep⟩
  · constructor
    · rw [hstate, hplay]
      constructor
      · intro h
        exact absurd h (by simp)
      · rintro ⟨hd, -⟩
        rw [hdue] at hd
        exact absurd hd (by simp)
    · intro hd
      rw [hdue] at hd
      exact absurd hd (by simp)
  · obtain ⟨hstate, heat, hnoeat, -⟩ := stepSnakeDue_spec r fuel _ g' hstep
    have hsn :
        ({ g with
           secondAccumulator :=
             (schedFrame dt g.secondAccumulator g.movesPerformedThisSecond).1
         , movesPerformedThisSecond :=
             (schedFrame dt g.secondAccumulator g.movesPerformedThisSecond).2.1 } :
          Game).snake = g.snake := rfl
    have hnh :
        newHeadOf
          { g with
            secondAccumulator :=
              (schedFrame dt g.secondAccumulator g.movesPerformedThisSecond).1
          , movesPerformedThisSecond :=
              (schedFrame dt g.secondAccumulator g.movesPerformedThisSecond).2.1 } =
          newHeadOf g := rfl
    have hap :
        ({ g with
           secondAccumulator :=
             (schedFrame dt g.secondAccumulator g.movesPerformedThisSecond).1
         , movesPerformedThisSecond :=
             (schedFrame dt g.secondAccumulator g.movesPerformedThisSecond).2.1 } :
          Game).apple = g.apple := rfl
    have hgs :
        ({ g with
           secondAccumulator :=
             (schedFrame dt g.secondAccumulator g.movesPerformedThisSecond).1
         , movesPerformedThisSecond :=
             (schedFrame dt g.secondAccumulator g.movesPerformedThisSecond).2.1 } :
          Game).state = g.state := rfl
    simp only [hsn, hnh, hap, hgs] at hstate heat hnoeat
    have htail : g'.snake.tail.head? = some (newHeadOf g) ∧
        6 ≤ g'.snake.tailLength := by
      by_cases he : newHeadOf g = Tail.mk g.apple.x g.apple.y
      · obtain ⟨h1, h2⟩ := heat he
        rw [h1, h2]
        exact ⟨rfl, by omega⟩
      · obtain ⟨h1, h2, -⟩ := hnoeat he
        rcases htl : g.snake.tail with - | ⟨a, l⟩
        · rw [htl, List.length_nil] at hlen
          omega
        · rw [h1, htl, h2]
          exact ⟨rfl, h6⟩
    refine ⟨?_, fun _ => ⟨htail.1, ?_⟩⟩
    · rw [hstate, hplay]
      by_cases hhit : segHit g.snake.tail g.snake.tailLength (newHeadOf g).x
          (newHeadOf g).y = true
      · simp [hhit, hdue]
      · simp [hhit, hdue]
    · rw [hout]
      unfold renderSegs
      rcases hn : g'.snake.tailLength.toNat with - | m
      · omega
      · rw [List.range_succ_eq_map, List.map_cons, List.head?_cons]
        have := htail.1
        rcases hgt : g'.snake.tail with - | ⟨b, l2⟩
        · rw [hgt, List.head?_nil] at this
          exact absurd this (by simp)
        · rw [hgt, List.head?_cons, Option.some.injEq] at this
          simp [List.getD_cons_zero, this]

/-- Witness for C2: a due, non-colliding, non-eating frame of the reachable
freshly started game with the apple at (0, 0). -/
theorem c2_lose_transition_witness :
    (gamePostMove.state = GameState.LOSE ↔
      ((schedFrame 200 gameAfterStartZ.secondAccumulator
          gameAfterStartZ.movesPerformedThisSecond).2.2 = true ∧
        segHit gameAfterStartZ.snake.tail gameAfterStartZ.snake.tailLength
          (newHeadOf gameAfterStartZ).x (newHeadOf gameAfterStartZ).y = true)) ∧
    ((schedFrame 200 gameAfterStartZ.secondAccumulator
        gameAfterStartZ.movesPerformedThisSecond).2.2 = true →
      gamePostMove.snake.tail.head? = some (newHeadOf gameAfterStartZ) ∧
      (renderSegs gamePostMove).head? = some (newHeadOf gameAfterStartZ)) := by
  have hs : schedFrame 200 gameAfterStartZ.secondAccumulator
      gameAfterStartZ.movesPerformedThisSecond = (200, 1, true) := by
    norm_num [schedFrame, movesPerSecond, gameAfterStartZ, onEvent, onEventMenu,
      initPlayingState, initialGame, keysSpace]
  have hstep : stepSnakeDue randZero 1
      { gameAfterStartZ with secondAccumulator := 200, movesPerformedThisSecond := 1 } =
      some gamePostMove := by rfl
  have hupd : onUpdate 200 randZero 1 gameAfterStartZ =
      some (gamePostMove, renderSegs gamePostMove) :=
    onUpdatePlaying_due 200 randZero 1 gameAfterStartZ 200 1 gamePostMove hs hstep
  exact c2_lose_transition gameAfterStartZ
    (Reachable.ev keysSpace randZero initialGame Reachable.init) rfl
    200 randZero 1 gamePostMove (renderSegs gamePostMove) hupd

/-- C8: the PLAYING input handler updates the velocity exactly by applying the
single highest-priority held directional key (priority up, down, left, right)
under the reversal guard; lower-priority keys have no effect that frame.  In
particular, from velocity (1, 0): a left request (with no up/down held) is
rejected and leaves the velocity unchanged, while up or down requests are
accepted and set the corresponding unit vector. -/
theorem c8_direction_policy (keys : Keys) (g : Game) :
    (((onEventPlaying keys g).snake.xVelocity, (onEventPlaying keys g).snake.yVelocity) =
      (match firstDir keys with
       | some d => applyDir d (g.snake.xVelocity, g.snake.yVelocity)
       | none => (g.snake.xVelocity, g.snake.yVelocity))) ∧
    (g.snake.xVelocity = 1 → g.snake.yVelocity = 0 →
      (((keys.w || keys.up) = false → (keys.s || keys.down) = false →
          (keys.a || keys.left) = true →
          (onEventPlaying keys g).snake.xVelocity = 1 ∧
          (onEventPlaying keys g).snake.yVelocity = 0) ∧
       ((keys.w || keys.up) = true →
          (onEventPlaying keys g).snake.xVelocity = 0 ∧
          (onEventPlaying keys g).snake.yVelocity = -1) ∧
       ((keys.w || keys.up) = false → (keys.s || keys.down) = true →
          (onEventPlaying keys g).snake.xVelocity = 0 ∧
          (onEventPlaying keys g).snake.yVelocity = 1))) := by
  unfold onEventPlaying firstDir applyDir
  constructor
  · split_ifs <;> simp_all
  · intro hx hy
    refine ⟨?_, ?_, ?_⟩ <;> intro h1 <;> simp_all

/-- Witness for C8: from the started game (velocity (1, 0)) with only the LEFT
key held, the reversal is rejected. -/
theorem c8_direction_policy_witness :
    (((onEventPlaying keysLeft gameAfterStart).snake.xVelocity,
        (onEventPlaying keysLeft gameAfterStart).snake.yVelocity) =
      (match firstDir keysLeft with
       | some d => applyDir d (gameAfterStart.snake.xVelocity, gameAfterStart.snake.yVelocity)
       | none => (gameAfterStart.snake.xVelocity, gameAfterStart.snake.yVelocity))) ∧
    (gameAfterStart.snake.xVelocity = 1 → gameAfterStart.snake.yVelocity = 0 →
      (((keysLeft.w || keysLeft.up) = false → (keysLeft.s || keysLeft.down) = false →
          (keysLeft.a || keysLeft.left) = true →
          (onEventPlaying keysLeft gameAfterStart).snake.xVelocity = 1 ∧
          (onEventPlaying keysLeft gameAfterStart).snake.yVelocity = 0) ∧
       ((keysLeft.w || keysLeft.up) = true →
          (onEventPlaying keysLeft gameAfterStart).snake.xVelocity = 0 ∧
          (onEventPlaying keysLeft gameAfterStart).snake.yVelocity = -1) ∧
       ((keysLeft.w || keysLeft.up) = false → (keysLeft.s || keysLeft.down) = true →
          (onEventPlaying keysLeft gameAfterStart).snake.xVelocity = 0 ∧
          (onEventPlaying keysLeft gameAfterStart).snake.yVelocity = 1))) :=
  c8_direction_policy keysLeft gameAfterStart

/-- Helper: C++ truncation toward zero is monotone. -/
lemma ratTrunc_mono {p q : ℚ} (h : p ≤ q) : ratTrunc p ≤ ratTrunc q := by
  unfold ratTrunc
  by_cases hp : 0 ≤ p
  · rw [if_pos hp, if_pos (le_trans hp h)]
    exact Int.floor_mono h
  · rw [if_neg hp]
    by_cases hq : 0 ≤ q
    · rw [if_pos hq]
      calc ⌈p⌉ ≤ 0 := Int.ceil_le.mpr (by exact_mod_cast le_of_lt (lt_of_not_le hp))
        _ ≤ ⌊q⌋ := Int.floor_nonneg.mpr hq
    · rw [if_neg hq]
      exact Int.ceil_mono h

/-- Helper: one spawn-loop iteration keeps the pool size and capacity. -/
lemma spawnOne_fields (rv : ℕ → ℚ) (e : ParticleEmitter) :
    (spawnOne rv e).particlePool.length = e.particlePool.length ∧
    (spawnOne rv e).maxParticles = e.maxParticles := by
  unfold spawnOne
  exact ⟨List.length_set _ _ _, rfl⟩

/-- Helper: the spawn loop keeps the pool size and capacity. -/
lemma spawnLoop_fields :
    ∀ (n : ℕ) (rv : ℕ → ℚ) (e : ParticleEmitter),
      (spawnLoop rv n e).particlePool.length = e.particlePool.length ∧
      (spawnLoop rv n e).maxParticles = e.maxParticles := by
  intro n
  induction n with
  | zero => intro rv e; exact ⟨rfl, rfl⟩
  | succ m ih =>
    intro rv e
    obtain ⟨h1, h2⟩ := ih (fun k => rv (k + 2)) (spawnOne rv e)
    obtain ⟨h3, h4⟩ := spawnOne_fields rv e
    exact ⟨by simp only [spawnLoop]; rw [h1, h3], by simp only [spawnLoop]; rw [h2, h4]⟩

/-- Helper: an emitter update keeps the pool size and capacity. -/
lemma emitterOnUpdate_fields (t dt : ℚ) (rv : ℕ → ℚ) (e : ParticleEmitter) :
    (emitterOnUpdate t dt rv e).particlePool.length = e.particlePool.length ∧
    (emitterOnUpdate t dt rv e).maxParticles = e.maxParticles := by
  simp only [emitterOnUpdate]
  split_ifs
  · exact ⟨rfl, rfl⟩
  · obtain ⟨h1, h2⟩ := spawnLoop_fields
      (ratTrunc ((((ratTrunc ((t - e.startOfSecond) * (e.newParticlesPerSecond : ℚ) / 1000)) :
        ℤ) : ℚ) - e.particlesCreatedThisSecond)).toNat rv e
    exact ⟨by simp only [List.length_map]; exact h1, h2⟩
  · exact ⟨by simp only [List.length_map], rfl⟩

/-- Helper: in every reachable emitter state the pool holds exactly
maxParticles slots. -/
lemma emitter_pool_length (e : ParticleEmitter) (h : EmitterReachable e) :
    e.particlePool.length = e.maxParticles := by
  induction h with
  | init x y life speed rate maxP t0 => simp [emitterInit]
  | upd t dt rv e he ih =>
    obtain ⟨h1, h2⟩ := emitterOnUpdate_fields t dt rv e
    rw [h1, h2]
    exact ih

/-- Helper: renderAlpha depends monotonically on the remaining lifetime. -/
lemma renderAlpha_le_of_le (p q : Particle) (ht : 0 < p.totalLifeTime)
    (hq1 : q.totalLifeTime = p.totalLifeTime)
    (hq2 : q.lifeTimeRemaining ≤ p.lifeTimeRemaining) :
    renderAlpha q ≤ renderAlpha p := by
  have hcross : ((ratTrunc (q.lifeTimeRemaining * 255) : ℤ) : ℚ) ≤
      ((ratTrunc (p.lifeTimeRemaining * 255) : ℤ) : ℚ) := by
    exact_mod_cast ratTrunc_mono
      (mul_le_mul_of_nonneg_right hq2 (by norm_num : (0 : ℚ) ≤ 255))
  unfold renderAlpha
  rw [hq1]
  exact ratTrunc_mono (by gcongr)

/-- C9 (amended): in every reachable emitter state at most maxParticles
particles are active (the pool has exactly maxParticles slots); an active
particle goes inactive on an update tick exactly when its remaining lifetime
minus the delta time of that tick is ≤ 0; every active pool particle is rendered
at alpha renderAlpha, which equals trunc(trunc(remaining * 255) /
totalLifetime) — two separate integer truncations, not the single
floor(255 * remaining / total) of the original claim — and this alpha is
non-increasing (not strictly decreasing) along update ticks. -/
theorem c9_particle_pool (e : ParticleEmitter) (he : EmitterReachable e)
    (p : Particle) (speed dt : ℚ) (hdt : 0 ≤ dt) (ht : 0 < p.totalLifeTime) :
    countActive e ≤ e.maxParticles ∧
    (p.active = true →
      ((ageParticle speed dt p).active = false ↔ p.lifeTimeRemaining - dt ≤ 0)) ∧
    (p.active = true → p ∈ e.particlePool →
      (p.x, p.y, renderAlpha p) ∈ emitterOnRender e) ∧
    renderAlpha p = ratTrunc ((ratTrunc (p.lifeTimeRemaining * 255) : ℤ) / p.totalLifeTime) ∧
    renderAlpha (ageParticle speed dt p) ≤ renderAlpha p := by
  refine ⟨?_, ?_, ?_, rfl, ?_⟩
  · calc countActive e ≤ e.particlePool.length := List.length_filter_le _ _
      _ = e.maxParticles := emitter_pool_length e he
  · intro hact
    simp only [ageParticle, hact, if_true, ite_true]
    by_cases hd : p.lifeTimeRemaining - dt ≤ 0
    · simp [hd]
    · simp [hd, hact]
  · intro hact hmem
    unfold emitterOnRender
    rw [List.mem_filterMap]
    exact ⟨p, hmem, by rw [if_pos hact]⟩
  · by_cases hact : p.active = true
    · have h1 : (ageParticle speed dt p).totalLifeTime = p.totalLifeTime := by
        simp only [ageParticle, hact, if_true, ite_true]
        split_ifs <;> rfl
      have h2 : (ageParticle speed dt p).lifeTimeRemaining ≤ p.lifeTimeRemaining := by
        simp only [ageParticle, hact, if_true, ite_true]
        split_ifs <;> simp <;> linarith
      exact renderAlpha_le_of_le p (ageParticle speed dt p) ht h1 h2
    · unfold ageParticle
      rw [if_neg hact]

/-- C9 counterexample.  Two refutations of the original claim:
(a) a particle spawned with lifetime 3/2 ms and aged once by 127/85 ms is
still active with remaining lifetime 1/170; the code renders it at alpha
trunc(trunc((1/170) * 255) / (3/2)) = trunc(1 / (3/2)) = 0, while the
claimed formula floor(255 * remaining / total) = floor(1.5 / 1.5) = 1;
(b) a particle spawned with lifetime 1000 ms and aged by two 1 ms ticks is
rendered at alpha 254 on both ticks, so its alpha does not strictly
decrease. -/
theorem c9_counterexample :
    (ageParticle 0 (127 / 85) particleShort).active = true ∧
    renderAlpha (ageParticle 0 (127 / 85) particleShort) = 0 ∧
    ⌊(255 * (ageParticle 0 (127 / 85) particleShort).lifeTimeRemaining /
        (ageParticle 0 (127 / 85) particleShort).totalLifeTime : ℚ)⌋ = 1 ∧
    (ageParticle 0 1 particleLong).active = true ∧
    (ageParticle 0 1 (ageParticle 0 1 particleLong)).active = true ∧
    renderAlpha (ageParticle 0 1 particleLong) = 254 ∧
    renderAlpha (ageParticle 0 1 (ageParticle 0 1 particleLong)) = 254 := by
  have haS : ageParticle 0 (127 / 85) particleShort =
      { x := 0, y := 0, xVelocity := 0, yVelocity := 0
      , totalLifeTime := 3 / 2, lifeTimeRemaining := 1 / 170, active := true } := by
    simp only [ageParticle, particleShort]
    norm_num [Particle.mk.injEq]
  have haL1 : ageParticle 0 1 particleLong =
      { x := 0, y := 0, xVelocity := 0, yVelocity := 0
      , totalLifeTime := 1000, lifeTimeRemaining := 999, active := true } := by
    simp only [ageParticle, particleLong]
    norm_num [Particle.mk.injEq]
  have haL2 : ageParticle 0 1 (ageParticle 0 1 particleLong) =
      { x := 0, y := 0, xVelocity := 0, yVelocity := 0
      , totalLifeTime := 1000, lifeTimeRemaining := 998, active := true } := by
    rw [haL1]
    simp only [ageParticle]
    norm_num [Particle.mk.injEq]
  have hcrossS : ratTrunc ((1 : ℚ) / 170 * 255) = 1 := by
    unfold ratTrunc
    rw [if_pos (by norm_num), show (1 : ℚ) / 170 * 255 = 3 / 2 by norm_num,
      Int.floor_eq_iff]
    norm_num
  have halphaS : renderAlpha (ageParticle 0 (127 / 85) particleShort) = 0 := by
    rw [haS]
    unfold renderAlpha
    rw [hcrossS]
    unfold ratTrunc
    rw [if_pos (by norm_num), show ((1 : ℤ) : ℚ) / (3 / 2) = 2 / 3 by norm_num,
      Int.floor_eq_iff]
    norm_num
  have hcrossL1 : ratTrunc ((999 : ℚ) * 255) = 254745 := by
    unfold ratTrunc
    rw [if_pos (by norm_num), show (999 : ℚ) * 255 = 254745 by norm_num]
    exact_mod_cast Int.floor_intCast 254745
  have hcrossL2 : ratTrunc ((998 : ℚ) * 255) = 254490 := by
    unfold ratTrunc
    rw [if_pos (by norm_num), show (998 : ℚ) * 255 = 254490 by norm_num]
    exact_mod_cast Int.floor_intCast 254490
  have halphaL1 : renderAlpha (ageParticle 0 1 particleLong) = 254 := by
    rw [haL1]
    unfold renderAlpha
    rw [hcrossL1]
    unfold ratTrunc
    rw [if_pos (by norm_num), Int.floor_eq_iff]
    norm_num
  have halphaL2 : renderAlpha (ageParticle 0 1 (ageParticle 0 1 particleLong)) = 254 := by
    rw [haL2]
    unfold renderAlpha
    rw [hcrossL2]
    unfold ratTrunc
    rw [if_pos (by norm_num), Int.floor_eq_iff]
    norm_num
  refine ⟨by rw [haS], halphaS, ?_, by rw [haL1], by rw [haL2], halphaL1, halphaL2⟩
  rw [haS]
  rw [show (255 * ((1 : ℚ) / 170) / (3 / 2) : ℚ) = 1 by norm_num]
  exact_mod_cast Int.floor_intCast 1

/-- Witness for C9 (amended) at a freshly constructed 3-slot emitter and the
lifetime-1000 particle aged by 1 ms. -/
theorem c9_particle_pool_witness :
    countActive (emitterInit 0 0 1000 1 5 3 0) ≤ (emitterInit 0 0 1000 1 5 3 0).maxParticles ∧
    (particleLong.active = true →
      ((ageParticle 1 1 particleLong).active = false ↔ particleLong.lifeTimeRemaining - 1 ≤ 0)) ∧
    (particleLong.active = true → particleLong ∈ (emitterInit 0 0 1000 1 5 3 0).particlePool →
      (particleLong.x, particleLong.y, renderAlpha particleLong) ∈
        emitterOnRender (emitterInit 0 0 1000 1 5 3 0)) ∧
    renderAlpha particleLong =
      ratTrunc ((ratTrunc (particleLong.lifeTimeRemaining * 255) : ℤ) /
        particleLong.totalLifeTime) ∧
    renderAlpha (ageParticle 1 1 particleLong) ≤ renderAlpha particleLong :=
  c9_particle_pool (emitterInit 0 0 1000 1 5 3 0) (EmitterReachable.init 0 0 1000 1 5 3 0)
    particleLong 1 1 (by norm_num) (by norm_num [particleLong])

end SnakeyBoi
